import Mathlib

/-!
Shallow embedding of the benchmark aggregation and report-baking engine of
this repository (`scripts/bench_accumulate.py`, `scripts/bench_report_local.py`,
`scripts/bench_bake.py`).

Modelling conventions:
* Python values decoded from JSON are modelled by `JVal`; JSON numbers are
  exact rationals (the claims under study never depend on binary floating
  point rounding).
* The content of a file on disk is `RawFile := Option (Option JVal)`:
  `none` means the file does not exist, `some none` means the file exists but
  its text is not valid JSON (so `json.loads` raises `JSONDecodeError`),
  `some (some j)` means the text parses to the value `j`.  A `JVal.obj`
  carries the items of the resulting Python dict (keys unique, as produced
  by `json.loads`).
* Python exceptions are made explicit with `Except PyExn`; each `try` block
  of the source is a Lean `match` on the modelled body, mapping exactly the
  exception classes named in its `except` clauses to handled outcomes and
  letting every other exception propagate.
-/

namespace Bench

/-- Euclid's algorithm with an explicit fuel argument, so that it is
structurally recursive and evaluates by plain reduction. -/
def gcdFuel : Nat → Nat → Nat → Nat
  | 0, _, y => y
  | fuel + 1, x, y => if x = 0 then y else gcdFuel fuel (y % x) x

/-- Greatest common divisor (fuel `x + 1` suffices: the first argument
strictly decreases at every recursive step). -/
def natGcd (x y : Nat) : Nat := gcdFuel (x + 1) x y

/-- Exact rationals in lowest terms with positive denominator, standing in
for Python's numbers (the claims under study never depend on binary
floating-point rounding).  All operations are computable by plain
structural reduction. -/
structure PyRat where
  num : Int
  den : Nat
deriving DecidableEq, Repr

/-- Canonical representative of `n / d` (every use has `d ≠ 0`). -/
def mkPyRat (n d : Int) : PyRat :=
  if d = 0 then ⟨0, 1⟩
  else
    let s : Int := if d < 0 then -1 else 1
    let n' := s * n
    let d' := (s * d).toNat
    let g := natGcd n'.natAbs d'
    ⟨n' / (g : Int), d' / g⟩

instance (n : Nat) : OfNat PyRat n := ⟨⟨n, 1⟩⟩

instance : Add PyRat :=
  ⟨fun a b => mkPyRat (a.num * (b.den : Int) + b.num * (a.den : Int)) ((a.den : Int) * (b.den : Int))⟩

instance : Div PyRat :=
  ⟨fun a b => mkPyRat (a.num * (b.den : Int)) ((a.den : Int) * b.num)⟩

instance : LE PyRat := ⟨fun a b => a.num * (b.den : Int) ≤ b.num * (a.den : Int)⟩

instance (a b : PyRat) : Decidable (a ≤ b) :=
  inferInstanceAs (Decidable (a.num * (b.den : Int) ≤ b.num * (a.den : Int)))

/-- Python values decoded from JSON (numbers as exact rationals). -/
inductive JVal where
  | null : JVal
  | bool : Bool → JVal
  | num : PyRat → JVal
  | str : String → JVal
  | arr : List JVal → JVal
  | obj : List (String × JVal) → JVal

/-- The Python exception classes that the modelled code can raise. -/
inductive PyExn where
  | keyError : PyExn
  | typeError : PyExn
  | valueError : PyExn
  | zeroDivisionError : PyExn
  | attributeError : PyExn
  | statisticsError : PyExn
deriving DecidableEq, Repr

/-- Lookup of a key among the items of a parsed JSON object
(`json.loads` yields a dict with unique keys). -/
def jLookup : List (String × JVal) → String → Option JVal
  | [], _ => none
  | (k, v) :: rest, key => if k = key then some v else jLookup rest key

/-- Python subscripting `content[key]` with a string key: a dict looks the key
up and raises `KeyError` when absent; every other JSON-decoded value
(list, str, number, bool, None) raises `TypeError`. -/
def pySubscript (j : JVal) (key : String) : Except PyExn JVal :=
  match j with
  | .obj kvs =>
    match jLookup kvs key with
    | some v => .ok v
    | none => .error .keyError
  | _ => .error .typeError

/-- Python `len`: defined for lists, strings and dicts; `TypeError` otherwise. -/
def pyLen (j : JVal) : Except PyExn Nat :=
  match j with
  | .arr xs => .ok xs.length
  | .str s => .ok s.length
  | .obj kvs => .ok kvs.length
  | _ => .error .typeError

/-- The sequence of elements Python iterates over for a value that supports
`len`: list elements, one-character strings for a string, the keys for a
dict.  Only used after `pyLen` succeeded. -/
def pyElems (j : JVal) : List JVal :=
  match j with
  | .arr xs => xs
  | .str s => s.data.map fun c => JVal.str (String.mk [c])
  | .obj kvs => kvs.map fun p => JVal.str p.1
  | _ => []

/-- Numeric coercion used by Python's division operator: ints/floats and
bools are numbers, everything else raises `TypeError`. -/
def pyNum (j : JVal) : Option PyRat :=
  match j with
  | .num q => some q
  | .bool b => some (if b then 1 else 0)
  | _ => none

/-- Python `t / i` on two decoded JSON values: `TypeError` when either operand
is not numeric, `ZeroDivisionError` when the divisor is zero. -/
def pyDiv (t i : JVal) : Except PyExn PyRat :=
  match pyNum t with
  | none => .error .typeError
  | some tq =>
    match pyNum i with
    | none => .error .typeError
    | some iq => if iq.num = 0 then .error .zeroDivisionError else .ok (tq / iq)

/-- The list comprehension `[t / i for t, i in zip(times, iters, strict=True)]`
over the element sequences, evaluated left to right; the `strict=True`
mismatch `ValueError` is modelled by the uneven-tail case (unreachable when
the two lengths were checked equal before). -/
def pyDivZip : List JVal → List JVal → Except PyExn (List PyRat)
  | [], [] => .ok []
  | t :: ts, i :: is =>
    match pyDiv t i with
    | .error e => .error e
    | .ok q =>
      match pyDivZip ts is with
      | .error e => .error e
      | .ok rest => .ok (q :: rest)
  | _, _ => .error .valueError

/-- Content of one on-disk file: absent, present-but-unparseable, or parsed. -/
abbrev RawFile := Option (Option JVal)

/-- What the body of the `try` in `extract_samples` produces for one cell,
before exception handling: either the lengths of `times` and `iters`
disagreed (warning + `continue` in the source) or the normalized sample
list was computed. -/
inductive BodyResult where
  | lengthMismatch : BodyResult
  | samples : List PyRat → BodyResult
deriving DecidableEq, Repr

/-- The `try` body of `extract_samples` for one parsed file `content`:
`iters = content["iters"]`, `times = content["times"]`, the length check,
then the normalizing division.  Exceptions surface in the `Except` layer. -/
def extractTryBody (content : JVal) : Except PyExn BodyResult :=
  match pySubscript content "iters" with
  | .error e => .error e
  | .ok iters =>
    match pySubscript content "times" with
    | .error e => .error e
    | .ok times =>
      match pyLen times with
      | .error e => .error e
      | .ok lt =>
        match pyLen iters with
        | .error e => .error e
        | .ok li =>
          if lt ≠ li then .ok .lengthMismatch
          else
            match pyDivZip (pyElems times) (pyElems iters) with
            | .error e => .error e
            | .ok s => .ok (.samples s)

/-- The kinds of stderr diagnostics `extract_samples` can emit for a cell. -/
inductive DiagKind where
  | jsonError : DiagKind
  | missingKey : DiagKind
  | lengthMismatch : DiagKind
  | valueCaught : DiagKind
deriving DecidableEq, Repr

/-- Observable outcome of the Sample Reader on one cell's raw file. -/
inductive CellOutcome where
  | noData : CellOutcome
  | diag : DiagKind → CellOutcome
  | ok : List PyRat → CellOutcome
  | exn : PyExn → CellOutcome
deriving DecidableEq, Repr

/-- Whether the Sample Reader printed a diagnostic to stderr for this cell. -/
def emitsDiagnostic : CellOutcome → Bool
  | .diag _ => true
  | _ => false

/-- Per-cell body of `extract_samples` (bench_accumulate.py): a missing file
is a silent `continue`; an unparseable file is a caught `JSONDecodeError`
(diagnostic); inside the `try`, `KeyError` and `ValueError` are caught
(diagnostic) while every other exception propagates. -/
def extract_cell (file : RawFile) : CellOutcome :=
  match file with
  | none => .noData
  | some none => .diag .jsonError
  | some (some content) =>
    match extractTryBody content with
    | .ok .lengthMismatch => .diag .lengthMismatch
    | .ok (.samples s) => .ok s
    | .error .keyError => .diag .missingKey
    | .error .valueError => .diag .valueCaught
    | .error e => .exn e

/-- A measurement cell: (benchmark group, input size). -/
abbrev Cell := String × ℕ

/-- The fixed ordered group list shared by all three scripts. -/
def GROUPS : List String :=
  ["snapshot_hash", "scheduler_drain", "scheduler_drain/enqueue", "scheduler_drain/drain"]

/-- The fixed ordered input-size list shared by all three scripts. -/
def INPUTS : List ℕ := [10, 100, 1000, 3000, 10000, 30000]

/-- The full enumerated cell space, in the iteration order of the scripts'
nested `for group in GROUPS: for n in INPUTS:` loops. -/
def allCells : List Cell := GROUPS.flatMap fun g => INPUTS.map fun n => (g, n)

/-- One provenance-tagged record appended to the accumulated dataset
(`{"group": .., "n": .., "run": .., "samples_ns": ..}`). -/
structure RunChunk where
  group : String
  n : ℕ
  run : ℕ
  samples_ns : List PyRat
deriving DecidableEq, Repr

/-- `extract_samples(run_idx)` of bench_accumulate.py over an abstract
criterion tree `fs` (the content of `<group>/<n>/new/sample.json` per cell):
iterates the enumerated cells in order, appends one `RunChunk` per cell with
usable data, skips silent/diagnosed cells, and lets any uncaught exception
abort the whole call. -/
def extractLoop (fs : Cell → RawFile) (runIdx : ℕ) : List Cell → Except PyExn (List RunChunk)
  | [] => .ok []
  | c :: rest =>
    match extract_cell (fs c) with
    | .exn e => .error e
    | .ok s =>
      match extractLoop fs runIdx rest with
      | .error e => .error e
      | .ok chunks => .ok (⟨c.1, c.2, runIdx, s⟩ :: chunks)
    | _ =>
      extractLoop fs runIdx rest

/-- `extract_samples` over the full enumeration. -/
def extract_samples (fs : Cell → RawFile) (runIdx : ℕ) : Except PyExn (List RunChunk) :=
  extractLoop fs runIdx allCells

/-- Stable insertion of a rational into a sorted list (ascending). -/
def insertSorted (x : PyRat) : List PyRat → List PyRat
  | [] => [x]
  | y :: ys => if x ≤ y then x :: y :: ys else y :: insertSorted x ys

/-- Ascending sort, modelling Python's `sorted` on a list of numbers. -/
def sortQ : List PyRat → List PyRat
  | [] => []
  | x :: xs => insertSorted x (sortQ xs)

/-- `statistics.median`: sort the data; for odd length take the middle
element, for even length average the two central elements; an empty list
raises `StatisticsError`. -/
def statistics_median (xs : List PyRat) : Except PyExn PyRat :=
  let s := sortQ xs
  let n := s.length
  if n = 0 then .error .statisticsError
  else if n % 2 = 1 then .ok (s.getD (n / 2) 0)
  else .ok ((s.getD (n / 2 - 1) 0 + s.getD (n / 2) 0) / 2)

/-- Whether the `grouped` dict of `bench_accumulate.main` has an entry for
cell `c`: true exactly when some accumulated chunk carries that cell (even
one with an empty `samples_ns`, since `grouped[key] = []` still inserts the
key before `extend`). -/
def cellPresent (acc : List RunChunk) (c : Cell) : Bool :=
  acc.any fun e => e.group == c.1 && e.n == c.2

/-- The pooled sample collection `grouped[key]` for cell `c`: the
concatenation, in accumulation order, of the `samples_ns` of every chunk
tagged with that cell. -/
def pooledSamples (acc : List RunChunk) (c : Cell) : List PyRat :=
  (acc.filter fun e => e.group == c.1 && e.n == c.2).flatMap fun e => e.samples_ns

/-- One printed summary-table row `| group | n | median | count |`. -/
structure SummaryRow where
  group : String
  n : ℕ
  median : PyRat
  count : ℕ
deriving DecidableEq, Repr

/-- The summary-table loop of `bench_accumulate.main`: for each enumerated
cell present in `grouped`, compute `statistics.median` of its pooled samples
(raising `StatisticsError` on an empty pool) and emit a row; absent cells
are skipped with `continue`. -/
def summaryLoop (acc : List RunChunk) : List Cell → Except PyExn (List SummaryRow)
  | [] => .ok []
  | c :: rest =>
    if cellPresent acc c then
      match statistics_median (pooledSamples acc c) with
      | .error e => .error e
      | .ok m =>
        match summaryLoop acc rest with
        | .error e => .error e
        | .ok rows => .ok (⟨c.1, c.2, m, (pooledSamples acc c).length⟩ :: rows)
    else
      summaryLoop acc rest

/-- The summary table over the full enumeration. -/
def summaryRows (acc : List RunChunk) : Except PyExn (List SummaryRow) :=
  summaryLoop acc allCells

/-- Observable result of one `bench_accumulate.main` session:
whether the process exited with status zero, the accumulated-dataset
artifact if it was written to `OUT_JSON`, the printed summary table if it
was reached, and any uncaught Python exception. -/
structure SessionResult where
  exitZero : Bool
  artifact : Option (List RunChunk)
  table : Option (List SummaryRow)
  uncaught : Option PyExn
deriving DecidableEq, Repr

/-- After the run loop: `OUT_JSON.write_text(...)` always happens first, then
the summary table is computed (an uncaught `StatisticsError` there leaves
the artifact written but the process dead). -/
def finishSession (acc : List RunChunk) : SessionResult :=
  match summaryRows acc with
  | .error e => ⟨false, some acc, none, some e⟩
  | .ok rows => ⟨true, some acc, some rows, none⟩

/-- The `for i in range(1, 11)` loop of `bench_accumulate.main` over the run
indices still to execute.  `runOk i = false` models `run_bench()` raising
`CalledProcessError` for run `i`: the handler prints and calls
`sys.exit(1)` — nothing is written.  An uncaught exception escaping
`extract_samples` also aborts with nothing written. -/
def runLoop (runOk : ℕ → Bool) (runFs : ℕ → Cell → RawFile) :
    List ℕ → List RunChunk → SessionResult
  | [], acc => finishSession acc
  | i :: rest, acc =>
    if runOk i then
      match extract_samples (runFs i) i with
      | .error e => ⟨false, none, none, some e⟩
      | .ok chunks => runLoop runOk runFs rest (acc ++ chunks)
    else
      ⟨false, none, none, none⟩

/-- `bench_accumulate.main`, parameterized by the outcome of each external
benchmark invocation and by the criterion tree each run leaves on disk. -/
def accumulate_main (runOk : ℕ → Bool) (runFs : ℕ → Cell → RawFile) : SessionResult :=
  runLoop runOk runFs (List.range' 1 10) []

/-- Outcome of one cell iteration of `bench_report_local.main`. -/
inductive ReportOutcome where
  | skipped : ReportOutcome
  | diagSkip : DiagKind → ReportOutcome
  | row : PyRat → ℕ → ReportOutcome
  | exn : PyExn → ReportOutcome
deriving DecidableEq, Repr

/-- Path selection of bench_report_local.py: `new/sample.json` if it exists,
else `base/sample.json`. -/
def chooseSample (fNew fBase : RawFile) : RawFile :=
  match fNew with
  | some x => some x
  | none => fBase

/-- Per-cell body of `bench_report_local.main`: same parsing and validation
as the Sample Reader, plus the `if not samples_ns: continue` guard that
omits empty cells before `statistics.median` is called. -/
def report_local_cell (fNew fBase : RawFile) : ReportOutcome :=
  match extract_cell (chooseSample fNew fBase) with
  | .noData => .skipped
  | .diag d => .diagSkip d
  | .exn e => .exn e
  | .ok s =>
    if s = [] then .skipped
    else
      match statistics_median s with
      | .error e => .exn e
      | .ok m => .row m s.length

/-- The three run-lifecycle directories `load_estimate` probes, in loop order. -/
inductive EKind where
  | new : EKind
  | base : EKind
  | change : EKind
deriving DecidableEq, Repr

/-- Failure reasons carried by the dict `load_estimate` returns on failure:
`parseError` for a caught parse/structure exception, `missingMean` for
`"missing mean.point_estimate"`, `notFound` for
`"not found (tried new/base/change)"`. -/
inductive Reason where
  | parseError : Reason
  | missingMean : Reason
  | notFound : Reason
deriving DecidableEq, Repr

/-- The dict returned by `load_estimate`: `success` models
`{"ok": True, "path", "mean", "lb", "ub"}` and `failure` models
`{"ok": False, "path", "error"}`. -/
inductive LoadResult where
  | success : EKind → PyRat → Option PyRat → Option PyRat → LoadResult
  | failure : EKind → Reason → LoadResult
deriving DecidableEq, Repr

/-- Python `kvs.get(key, dflt)` on a dict's items. -/
def pyGetD (kvs : List (String × JVal)) (key : String) (dflt : JVal) : JVal :=
  (jLookup kvs key).getD dflt

/-- Python `j.get(key, dflt)`: only dicts have `.get`; every other value
(including `None`) raises `AttributeError`. -/
def pyGet (j : JVal) (key : String) (dflt : JVal) : Except PyExn JVal :=
  match j with
  | .obj kvs => .ok (pyGetD kvs key dflt)
  | _ => .error .attributeError

/-- `kvs.get(key)` normalized for an `is None` test: a missing key and a
stored JSON `null` both read back as Python `None`. -/
def normGet (kvs : List (String × JVal)) (key : String) : Option JVal :=
  match jLookup kvs key with
  | some .null => none
  | o => o

/-- Python `float(x)` on a decoded JSON value: numbers and bools convert;
lists, dicts and `None` raise `TypeError`.  A string raises `ValueError`
unless it spells a number — the numeric-string case is not modelled, which
is harmless here because both conversion outcomes below are routed into
the same caught-exception branch of `load_estimate`. -/
def pyFloat (j : JVal) : Except PyExn PyRat :=
  match j with
  | .num q => .ok q
  | .bool b => .ok (if b then 1 else 0)
  | .str _ => .error .valueError
  | _ => .error .typeError

/-- `float(v) if v is not None else None` with missing-or-null modelled
as `JVal.null`. -/
def optFloat (j : JVal) : Except PyExn (Option PyRat) :=
  match j with
  | .null => .ok none
  | v =>
    match pyFloat v with
    | .error e => .error e
    | .ok q => .ok (some q)

/-- The `try` body of `load_estimate` on the parsed value `j` of the first
existing candidate (directory `k`): the `mean` extraction with its `Mean`
fallback, the `lb`/`ub` chained `.get` calls (which raise `AttributeError`
on a non-dict link), the missing-mean early return, then the `float`
conversions. -/
def estTryBody (k : EKind) (j : JVal) : Except PyExn LoadResult :=
  match j with
  | .obj kvs =>
    let mean0 : Option JVal :=
      match jLookup kvs "mean" with
      | some (.obj m) => normGet m "point_estimate"
      | _ => none
    let meanV : Option JVal :=
      match mean0 with
      | some v => some v
      | none =>
        match jLookup kvs "Mean" with
        | some (.obj m) => normGet m "point_estimate"
        | _ => none
    match pyGet (pyGetD kvs "mean" (.obj [])) "confidence_interval" (.obj []) with
    | .error e => .error e
    | .ok ci1 =>
      match pyGet ci1 "lower_bound" .null with
      | .error e => .error e
      | .ok lbv =>
        match pyGet (pyGetD kvs "mean" (.obj [])) "confidence_interval" (.obj []) with
        | .error e => .error e
        | .ok ci2 =>
          match pyGet ci2 "upper_bound" .null with
          | .error e => .error e
          | .ok ubv =>
            match meanV with
            | none => .ok (.failure k .missingMean)
            | some mv =>
              match pyFloat mv with
              | .error e => .error e
              | .ok mq =>
                match optFloat lbv with
                | .error e => .error e
                | .ok lbq =>
                  match optFloat ubv with
                  | .error e => .error e
                  | .ok ubq => .ok (.success k mq lbq ubq)
  | _ => .error .attributeError

/-- The exception classes named in `load_estimate`'s `except` clause other
than `JSONDecodeError` (which only `json.loads` raises):
`KeyError, TypeError, ValueError`.  `AttributeError` is not among them. -/
def caughtInLoad : PyExn → Bool
  | .keyError => true
  | .typeError => true
  | .valueError => true
  | _ => false

/-- Processing of one existing candidate file by `load_estimate`:
an unparseable file is a caught `JSONDecodeError`; a caught exception from
the body becomes a `parseError` failure dict; anything else propagates. -/
def loadCandidate (k : EKind) (content : Option JVal) : Except PyExn LoadResult :=
  match content with
  | none => .ok (.failure k .parseError)
  | some j =>
    match estTryBody k j with
    | .ok r => .ok r
    | .error e => if caughtInLoad e then .ok (.failure k .parseError) else .error e

/-- The three candidate `estimates.json` files of one cell. -/
structure EstCell where
  new : RawFile
  base : RawFile
  change : RawFile

/-- `load_estimate(group, n)` of bench_bake.py over the cell's candidate
files: the `for kind in ("new", "base", "change")` loop returns from the
first iteration whose file exists; if none exists it returns the
not-found failure naming the `new` path. -/
def load_estimate (c : EstCell) : Except PyExn LoadResult :=
  match c.new with
  | some f => loadCandidate .new f
  | none =>
    match c.base with
    | some f => loadCandidate .base f
    | none =>
      match c.change with
      | some f => loadCandidate .change f
      | none => .ok (.failure .new .notFound)

/-- The first candidate location (in `new`, `base`, `change` order) whose
file exists, together with that file's content. -/
def firstExisting (c : EstCell) : Option (EKind × Option JVal) :=
  match c.new with
  | some f => some (.new, f)
  | none =>
    match c.base with
    | some f => some (.base, f)
    | none =>
      match c.change with
      | some f => some (.change, f)
      | none => none

/-- One record of the baked success dataset
(`{"group", "n", "mean", "lb", "ub"}`). -/
structure SuccessRec where
  group : String
  n : ℕ
  mean : PyRat
  lb : Option PyRat
  ub : Option PyRat
deriving DecidableEq, Repr

/-- One record of the baked missing dataset
(`{"group", "n", "path", "error"}`). -/
structure MissingRec where
  group : String
  n : ℕ
  path : EKind
  reason : Reason
deriving DecidableEq, Repr

/-- The per-cell loop of `bake_html`: each enumerated cell is routed, by the
`ok` flag of its `load_estimate` result, into exactly one of the two
collections; an uncaught exception from `load_estimate` aborts the bake
with no collections produced. -/
def bakeLoop (fs : Cell → EstCell) :
    List Cell → Except PyExn (List SuccessRec × List MissingRec)
  | [] => .ok ([], [])
  | c :: rest =>
    match load_estimate (fs c) with
    | .error e => .error e
    | .ok r =>
      match bakeLoop fs rest with
      | .error e => .error e
      | .ok (succ, miss) =>
        match r with
        | .success _ m lb ub => .ok (⟨c.1, c.2, m, lb, ub⟩ :: succ, miss)
        | .failure k reason => .ok (succ, ⟨c.1, c.2, k, reason⟩ :: miss)

/-- The two datasets `bake_html` computes over the full enumeration. -/
def bake_cells (fs : Cell → EstCell) : Except PyExn (List SuccessRec × List MissingRec) :=
  bakeLoop fs allCells

/-- Split a character list at the first occurrence of `pat`:
`some (p, q)` with `s = p ++ pat ++ q` and the occurrence at position
`p.length`, or `none` when `pat` does not occur. -/
def splitFirst (s pat : List Char) : Option (List Char × List Char) :=
  match s with
  | [] => if pat = [] then some ([], []) else none
  | c :: rest =>
    if pat.isPrefixOf (c :: rest) then some ([], (c :: rest).drop pat.length)
    else
      match splitFirst rest pat with
      | some p => some (c :: p.1, p.2)
      | none => none

/-- Python `s.replace(pat, rep, 1)`: rewrite the first occurrence only. -/
def pyReplaceOnce (s pat rep : List Char) : List Char :=
  match splitFirst s pat with
  | some p => p.1 ++ rep ++ p.2
  | none => s

/-- Soundness of `splitFirst`: a successful split reassembles the input. -/
theorem splitFirst_eq_append (pat : List Char) :
    ∀ (s p q : List Char), splitFirst s pat = some (p, q) → s = p ++ pat ++ q := by
  intro s
  induction s with
  | nil =>
    intro p q h
    by_cases hp : pat = []
    · simp [splitFirst, hp] at h
      simp [hp, h.1, h.2]
    · simp [splitFirst, hp] at h
  | cons c rest ih =>
    intro p q h
    by_cases hpre : pat.isPrefixOf (c :: rest)
    · rw [splitFirst, if_pos hpre] at h
      obtain ⟨t, ht⟩ : pat <+: (c :: rest) := List.isPrefixOf_iff_prefix.mp hpre
      simp only [Option.some.injEq, Prod.mk.injEq] at h
      obtain ⟨hp, hq⟩ := h
      subst hp
      simp only [List.nil_append]
      rw [← ht] at hq ⊢
      rw [List.drop_left] at hq
      rw [hq]
    · rw [splitFirst, if_neg hpre] at h
      cases hrec : splitFirst rest pat with
      | none => rw [hrec] at h; simp at h
      | some pr =>
        rw [hrec] at h
        simp only [Option.some.injEq, Prod.mk.injEq] at h
        have hrest := ih pr.1 pr.2 (by rw [hrec])
        rw [← h.1, ← h.2]
        simp [hrest]

/-- `pat` does not occur (as a whole) inside the prefix returned by
`splitFirst`: the split is at the first occurrence. -/
theorem splitFirst_first (pat : List Char) (hpat : pat ≠ []) :
    ∀ (s p q : List Char), splitFirst s pat = some (p, q) → splitFirst p pat = none := by
  intro s
  induction s with
  | nil =>
    intro p q h
    simp [splitFirst, hpat] at h
  | cons c rest ih =>
    intro p q h
    by_cases hpre : pat.isPrefixOf (c :: rest)
    · rw [splitFirst, if_pos hpre] at h
      simp only [Option.some.injEq, Prod.mk.injEq] at h
      rw [← h.1]
      simp [splitFirst, hpat]
    · rw [splitFirst, if_neg hpre] at h
      cases hrec : splitFirst rest pat with
      | none => rw [hrec] at h; simp at h
      | some pr =>
        rw [hrec] at h
        simp only [Option.some.injEq, Prod.mk.injEq] at h
        have hrest := splitFirst_eq_append pat rest pr.1 pr.2 (by rw [hrec])
        have hnone := ih pr.1 pr.2 (by rw [hrec])
        rw [← h.1]
        have hhead : ¬ pat.isPrefixOf (c :: pr.1) := by
          intro habs
          apply hpre
          rw [ List.isPrefixOf_iff_prefix] at habs ⊢
          apply habs.trans
          refine ⟨pat ++ pr.2, ?_⟩
          simp [hrest]
        rw [splitFirst, if_neg hhead, hnone]

/-- Length bookkeeping for a successful split. -/
theorem splitFirst_length (pat s p q : List Char) (h : splitFirst s pat = some (p, q)) :
    s.length = p.length + pat.length + q.length := by
  have := splitFirst_eq_append pat s p q h
  simp [this]
  omega

/-- Python `s.replace(pat, rep)` for a non-empty `pat`: rewrite every
(non-overlapping, left-to-right) occurrence.  The empty-pattern case is
returned unchanged; the source only ever replaces the fixed non-empty
marker and `</body>` strings. -/
def pyReplaceAll (s pat rep : List Char) : List Char :=
  if hpat : pat = [] then s
  else
    match hs : splitFirst s pat with
    | none => s
    | some p => p.1 ++ rep ++ pyReplaceAll p.2 pat rep
termination_by s.length
decreasing_by
  have := splitFirst_length pat s p.1 p.2 (by rw [hs])
  have hlen : 0 < pat.length := List.length_pos.mpr hpat
  omega

/-- When the pattern does not occur, `replace` returns the string unchanged. -/
theorem pyReplaceAll_not_found (s pat rep : List Char) (h : splitFirst s pat = none) :
    pyReplaceAll s pat rep = s := by
  rw [pyReplaceAll]
  split
  · rfl
  · split
    · rfl
    · rename_i heq
      rw [h] at heq
      exact absurd heq (by simp)

/-- One rewriting step of `replace`: the part before the first occurrence is
kept, the replacement is emitted, scanning resumes after the occurrence. -/
theorem pyReplaceAll_step (s pat rep p q : List Char) (hpat : pat ≠ [])
    (h : splitFirst s pat = some (p, q)) :
    pyReplaceAll s pat rep = p ++ rep ++ pyReplaceAll q pat rep := by
  rw [pyReplaceAll]
  split
  · exact absurd (by assumption) hpat
  · split
    · rename_i heq
      rw [h] at heq
      exact absurd heq (by simp)
    · rename_i pr heq
      rw [h] at heq
      simp only [Option.some.injEq] at heq
      rw [← heq]

/-- The insertion marker of `bake_html`:
`"<script>\n      const GROUPS = ["`. -/
def markerChars : List Char := "<script>\n      const GROUPS = [".data

/-- The closing-body boundary `"</body>"` used by the fallback insertion. -/
def bodyCloseChars : List Char := "</body>".data

/-- The splice step of `bake_html` (bench_bake.py, after the two datasets are
serialized): if the marker occurs in the template, insert the inline script
block before its first occurrence (`html.replace(marker, inject + marker, 1)`);
otherwise insert before the closing body boundary
(`html.replace("</body>", inject + "</body>")`). -/
def bake_splice (html inject : List Char) : List Char :=
  if (splitFirst html markerChars).isSome then
    pyReplaceOnce html markerChars (inject ++ markerChars)
  else
    pyReplaceAll html bodyCloseChars (inject ++ bodyCloseChars)

/-- How `bakeLoop` distributes cells over the two collections: whenever the
loop completes, for every cell the number of success records plus the number
of missing records tagged with that cell equals the cell's multiplicity in
the processed enumeration. -/
theorem bakeLoop_counts (fs : Cell → EstCell) :
    ∀ (cs : List Cell) (succ : List SuccessRec) (miss : List MissingRec),
      bakeLoop fs cs = .ok (succ, miss) → ∀ c : Cell,
        (succ.countP fun r => (r.group, r.n) == c)
          + (miss.countP fun r => (r.group, r.n) == c) = cs.count c := by
  intro cs
  induction cs with
  | nil =>
    intro succ miss h c
    simp only [bakeLoop, Except.ok.injEq, Prod.mk.injEq] at h
    simp [← h.1, ← h.2]
  | cons c0 rest ih =>
    intro succ miss h c
    simp only [bakeLoop] at h
    cases hl : load_estimate (fs c0) with
    | error e => rw [hl] at h; simp at h
    | ok r =>
      rw [hl] at h
      cases hrec : bakeLoop fs rest with
      | error e => rw [hrec] at h; simp at h
      | ok pm =>
        rw [hrec] at h
        have hcount := ih pm.1 pm.2 (by rw [hrec]) c
        cases r with
        | success k m lb ub =>
          simp only [Except.ok.injEq, Prod.mk.injEq] at h
          rw [← h.1, ← h.2]
          simp only [List.countP_cons, List.count_cons, ← hcount]
          have : ((c0.1, c0.2) == c) = (c0 == c) := rfl
          rw [this]
          cases h0 : c0 == c <;> simp [h0] <;> omega
        | failure k reason =>
          simp only [Except.ok.injEq, Prod.mk.injEq] at h
          rw [← h.1, ← h.2]
          simp only [List.countP_cons, List.count_cons, ← hcount]
          have : ((c0.1, c0.2) == c) = (c0 == c) := rfl
          rw [this]
          cases h0 : c0 == c <;> simp [h0] <;> omega

/-- An element of a duplicate-free list is counted exactly once. -/
theorem count_eq_one_of_nodup {α : Type} [BEq α] [LawfulBEq α] :
    ∀ (l : List α), l.Nodup → ∀ a ∈ l, l.count a = 1 := by
  intro l
  induction l with
  | nil => intro _ a ha; simp at ha
  | cons x xs ih =>
    intro hnd a ha
    rw [List.count_cons]
    rcases List.mem_cons.mp ha with h1 | h2
    · subst h1
      rw [List.count_eq_zero.mpr (List.nodup_cons.mp hnd).1]
      simp
    · rw [ih (List.nodup_cons.mp hnd).2 a h2]
      have hne : x ≠ a := by
        intro hxa
        exact (List.nodup_cons.mp hnd).1 (hxa ▸ h2)
      simp [hne]

/-- A filesystem under which the first enumerated cell's `new/estimates.json`
exists and parses to a JSON array (valid JSON that is not an object). -/
def exFsC1 : Cell → EstCell := fun c =>
  if c = ("snapshot_hash", 10) then ⟨some (some (.arr [])), none, none⟩ else ⟨none, none, none⟩

/-- C1 (counterexample): the claim "every enumerated cell appears in exactly
one of the two output collections" fails as a universal statement about the
Report Baker run.  Under `exFsC1` the estimates file of cell
`("snapshot_hash", 10)` parses to a JSON array, so `obj.get("mean")` raises
`AttributeError`, which `load_estimate`'s `except` clause
(`JSONDecodeError, KeyError, TypeError, ValueError`) does not catch: the bake
aborts and produces no collections at all, so no enumerated cell appears in
either collection. -/
theorem C1_counterexample : bake_cells exFsC1 = .error .attributeError := by rfl

/-- C1 (amended): whenever the per-cell loop of `bake_html` completes without
an uncaught exception, every enumerated cell appears in exactly one of the
success set and the Missing Record set — the two output collections
partition the enumerated cell space with no overlap and no omission. -/
theorem C1_partition (fs : Cell → EstCell) (succ : List SuccessRec) (miss : List MissingRec)
    (h : bake_cells fs = .ok (succ, miss)) (c : Cell) (hc : c ∈ allCells) :
    (succ.countP fun r => (r.group, r.n) == c)
      + (miss.countP fun r => (r.group, r.n) == c) = 1 := by
  have hcount := bakeLoop_counts fs allCells succ miss h c
  rw [hcount]
  exact count_eq_one_of_nodup allCells (by decide) c hc

/-- Witness for C1: the all-absent filesystem completes the bake, and the
cell `("snapshot_hash", 10)` is counted exactly once across the two
collections. -/
theorem C1_partition_witness :
    ((([] : List SuccessRec)).countP fun r => (r.group, r.n) == (("snapshot_hash", 10) : Cell))
      + ((allCells.map fun c =>
            ({ group := c.1, n := c.2, path := .new, reason := .notFound } : MissingRec)).countP
          fun r => (r.group, r.n) == (("snapshot_hash", 10) : Cell)) = 1 :=
  C1_partition (fun _ => ⟨none, none, none⟩) _ _ (by rfl) ("snapshot_hash", 10) (by decide)

/-- Abort propagation through the run loop: if every run before some index
succeeds (benchmark invocation ok and sample extraction exception-free) and
that index's invocation fails, the loop returns the failed session — exit
status non-zero, nothing written, no summary. -/
theorem runLoop_abort (runOk : ℕ → Bool) (runFs : ℕ → Cell → RawFile) (i : ℕ) (l2 : List ℕ)
    (hfail : runOk i = false) :
    ∀ (l1 : List ℕ) (acc : List RunChunk),
      (∀ j ∈ l1, runOk j = true ∧ ∃ cs, extract_samples (runFs j) j = .ok cs) →
      runLoop runOk runFs (l1 ++ i :: l2) acc = ⟨false, none, none, none⟩ := by
  intro l1
  induction l1 with
  | nil =>
    intro acc _
    simp [runLoop, hfail]
  | cons j js ih =>
    intro acc hpre
    obtain ⟨hok, cs, hcs⟩ := hpre j (by simp)
    simp only [List.cons_append, runLoop, hok, if_true, hcs]
    exact ih _ fun x hx => hpre x (by simp [hx])

/-- Run-outcome schedule for the C2 scenario: run 1 succeeds, run 2 fails. -/
def exOkC2 : ℕ → Bool := fun i => i == 1

/-- A raw sample file with one sample: `{"iters": [1], "times": [5]}`. -/
def goodSampleJ : JVal := .obj [("iters", .arr [.num 1]), ("times", .arr [.num 5])]

/-- A criterion tree in which exactly the cell `("snapshot_hash", 10)` has a
valid raw sample file after every run. -/
def exFsC2 : ℕ → Cell → RawFile := fun _ c =>
  if c = ("snapshot_hash", 10) then some (some goodSampleJ) else none

/-- C2 (counterexample): run 1 succeeds and collects a non-empty dataset,
run 2's benchmark invocation fails — the session exits non-zero, but the
output artifact is never written (`artifact = none`): the `sys.exit(1)` in
the `except CalledProcessError` handler fires before the
`OUT_JSON.write_text` that only follows the loop, so the partial
accumulation is discarded, contradicting the claimed flush. -/
theorem C2_counterexample :
    extract_samples (exFsC2 1) 1 = .ok [⟨"snapshot_hash", 10, 1, [5]⟩] ∧
    accumulate_main exOkC2 exFsC2 = ⟨false, none, none, none⟩ :=
  ⟨rfl, rfl⟩

/-- C2 (amended): when an external benchmark invocation fails after any
number of successful runs, the aggregation session aborts the remaining runs
and exits non-zero, and the partial Accumulated Dataset is discarded — the
output artifact is not written (it is written only after all ten runs
complete). -/
theorem C2_abort_discards (runOk : ℕ → Bool) (runFs : ℕ → Cell → RawFile)
    (l1 : List ℕ) (i : ℕ) (l2 : List ℕ)
    (hsplit : List.range' 1 10 = l1 ++ i :: l2)
    (hpre : ∀ j ∈ l1, runOk j = true ∧ ∃ cs, extract_samples (runFs j) j = .ok cs)
    (hfail : runOk i = false) :
    accumulate_main runOk runFs = ⟨false, none, none, none⟩ := by
  unfold accumulate_main
  rw [hsplit]
  exact runLoop_abort runOk runFs i l2 hfail l1 [] hpre

/-- Witness for C2 (amended) at the concrete schedule of `exOkC2`. -/
theorem C2_abort_discards_witness :
    accumulate_main exOkC2 exFsC2 = ⟨false, none, none, none⟩ :=
  C2_abort_discards exOkC2 exFsC2 [1] 2 [3, 4, 5, 6, 7, 8, 9, 10] (by rfl)
    (by
      intro j hj
      simp only [List.mem_singleton] at hj
      subst hj
      exact ⟨rfl, [⟨"snapshot_hash", 10, 1, [5]⟩], rfl⟩)
    rfl

/-- A criterion tree whose only raw sample file parses to a JSON array. -/
def exFsC3 : ℕ → Cell → RawFile := fun _ c =>
  if c = ("snapshot_hash", 10) then some (some (.arr [.num 1, .num 2, .num 3])) else none

/-- C3 (code bug): the Sample Reader does raise past its boundary for some
file contents.  A file parsing to a JSON array (valid JSON, wrong shape)
makes `content["iters"]` raise `TypeError`, and a zero iteration count makes
`t / i` raise `ZeroDivisionError`; neither class is in
`except (json.JSONDecodeError, KeyError, ValueError)`, so the exception
escapes `extract_samples` and aborts the whole aggregation session with
nothing written — instead of the claimed downgrade to absence plus a
diagnostic. -/
theorem C3_uncaught_exception :
    extract_cell (some (some (.arr [.num 1, .num 2, .num 3]))) = .exn .typeError ∧
    extract_cell (some (some (.obj [("iters", .arr [.num 0]), ("times", .arr [.num 1])]))) =
      .exn .zeroDivisionError ∧
    extract_samples (exFsC3 1) 1 = .error .typeError ∧
    accumulate_main (fun _ => true) exFsC3 = ⟨false, none, none, some .typeError⟩ :=
  ⟨rfl, rfl, rfl, rfl⟩

/-- An accumulated dataset pooling `[5, 1, 9, 3]` for one cell and
`[5, 1, 9]` for another. -/
def accC4 : List RunChunk :=
  [⟨"snapshot_hash", 10, 1, [5, 1, 9, 3]⟩, ⟨"scheduler_drain", 100, 2, [5, 1, 9]⟩]

/-- C4: the per-cell reduction is the statistical median with even-count
averaging: `median [5, 1, 9, 3] = 4` and `median [5, 1, 9] = 5`, both as a
direct evaluation of `statistics.median` and through the summary-table
computation of bench_accumulate.py and the per-cell row computation of
bench_report_local.py (using a raw file whose normalized samples are
`[5, 1, 9, 3]`). -/
theorem C4_median_reduction :
    statistics_median [5, 1, 9, 3] = .ok 4 ∧
    statistics_median [5, 1, 9] = .ok 5 ∧
    summaryRows accC4 = .ok
      [⟨"snapshot_hash", 10, 4, 4⟩, ⟨"scheduler_drain", 100, 5, 3⟩] ∧
    report_local_cell (some (some (.obj [("iters", .arr [.num 1, .num 1, .num 1, .num 1]),
        ("times", .arr [.num 5, .num 1, .num 9, .num 3])]))) none = .row 4 4 :=
  ⟨rfl, rfl, rfl, rfl⟩

/-- A raw sample file that exists and parses but has zero-length sequences:
`{"iters": [], "times": []}`. -/
def emptyArraysJ : JVal := .obj [("iters", .arr []), ("times", .arr [])]

/-- A criterion tree in which exactly the cell `("snapshot_hash", 10)` has
the empty-sequences raw file after every run. -/
def exFsC5 : ℕ → Cell → RawFile := fun _ c =>
  if c = ("snapshot_hash", 10) then some (some emptyArraysJ) else none

/-- C5 (code bug): a cell whose pooled collection is empty is not omitted by
bench_accumulate.py — it crashes the summary.  The empty-sequences file
yields a chunk with `samples_ns = []`, so `grouped` contains the key (the
`key not in grouped` guard does not skip it) and `statistics.median([])`
raises `StatisticsError`: the session writes the artifact and then dies with
a non-zero exit and no summary table.  bench_report_local.py, by contrast,
has the intended `if not samples_ns: continue` guard and skips the cell
without error. -/
theorem C5_empty_pool_crash :
    extract_cell (some (some emptyArraysJ)) = .ok [] ∧
    summaryRows [⟨"snapshot_hash", 10, 1, []⟩] = .error .statisticsError ∧
    accumulate_main (fun _ => true) exFsC5 =
      ⟨false, some ((List.range' 1 10).map fun i => ⟨"snapshot_hash", 10, i, []⟩),
        none, some .statisticsError⟩ ∧
    report_local_cell (some (some emptyArraysJ)) none = .skipped :=
  ⟨rfl, rfl, rfl, rfl⟩

/-- C6: whenever the parsed raw file carries `times` and `iters` sequences of
unequal lengths, the Sample Reader emits the length-mismatch diagnostic
(stderr warning) and treats the cell as absent; the element-wise division
branch is never reached, so no truncated zip occurs. -/
theorem C6_length_mismatch (times iters : List JVal)
    (h : times.length ≠ iters.length) :
    extract_cell (some (some (.obj [("iters", .arr iters), ("times", .arr times)]))) =
      .diag .lengthMismatch := by
  have hbody : extractTryBody (.obj [("iters", .arr iters), ("times", .arr times)]) =
      .ok .lengthMismatch := by
    have hred : extractTryBody (.obj [("iters", .arr iters), ("times", .arr times)]) =
        if times.length ≠ iters.length then .ok .lengthMismatch
        else
          match pyDivZip times iters with
          | .error e => .error e
          | .ok s => .ok (.samples s) := rfl
    rw [hred, if_pos h]
  show (match extractTryBody (.obj [("iters", .arr iters), ("times", .arr times)]) with
        | .ok .lengthMismatch => CellOutcome.diag .lengthMismatch
        | .ok (.samples s) => CellOutcome.ok s
        | .error .keyError => CellOutcome.diag .missingKey
        | .error .valueError => CellOutcome.diag .valueCaught
        | .error e => CellOutcome.exn e) = CellOutcome.diag .lengthMismatch
  rw [hbody]

/-- Witness for C6 at `times = [1]`, `iters = []`. -/
theorem C6_length_mismatch_witness :
    extract_cell (some (some (.obj [("iters", .arr []), ("times", .arr [.num 1])]))) =
      .diag .lengthMismatch :=
  C6_length_mismatch [.num 1] [] (by decide)

/-- C7: a missing raw file yields a silent absence (no stderr diagnostic),
while a file that exists but is malformed — unparseable text, or parseable
but missing the required `iters` field — yields an absence with a
diagnostic: the two conditions are observably distinct. -/
theorem C7_absent_silent_malformed_loud :
    extract_cell none = .noData ∧
    emitsDiagnostic (extract_cell none) = false ∧
    extract_cell (some none) = .diag .jsonError ∧
    emitsDiagnostic (extract_cell (some none)) = true ∧
    extract_cell (some (some (.obj []))) = .diag .missingKey ∧
    emitsDiagnostic (extract_cell (some (some (.obj [])))) = true :=
  ⟨rfl, rfl, rfl, rfl, rfl, rfl⟩

/-- The estimate files of the C8 scenario: `new/estimates.json` exists but is
unparseable, `base/estimates.json` exists and parses with
`mean.point_estimate = 7`. -/
def exEstC8 : EstCell :=
  ⟨some none, some (some (.obj [("mean", .obj [("point_estimate", .num 7)])])), none⟩

/-- C8 (counterexample): when the earlier candidate exists but is
unparseable while a later candidate exists and is parseable, the later one
is NOT used: `load_estimate` returns the parse-error failure from the `new`
candidate (the `return` sits inside the first loop iteration whose file
exists), even though processing the `base` candidate would have produced a
successful estimate with mean 7. -/
theorem C8_counterexample :
    load_estimate exEstC8 = .ok (.failure .new .parseError) ∧
    loadCandidate .base (some (.obj [("mean", .obj [("point_estimate", .num 7)])])) =
      .ok (.success .base 7 none none) :=
  ⟨rfl, rfl⟩

/-- C8 (amended): the Estimate Loader searches the candidate locations in the
fixed priority order new, base, change, and uses the first candidate that
exists — whether or not it parses.  If that candidate fails to parse, a
structured parse-error failure is returned and later candidates are not
consulted; only when no candidate exists is the not-found failure (naming
the `new` path) returned. -/
theorem C8_first_existing (c : EstCell) :
    load_estimate c =
      match firstExisting c with
      | none => .ok (.failure .new .notFound)
      | some (k, f) => loadCandidate k f := by
  obtain ⟨fn, fb, fc⟩ := c
  cases fn <;> cases fb <;> cases fc <;> rfl

/-- C9: if the template contains the insertion marker, the baked artifact is
the template with the inline data block spliced in strictly before the
first occurrence of the marker; if it does not but contains the closing
`</body>` boundary, the block is spliced in immediately before that
boundary's first occurrence (and before every later one, per Python's
`replace`-all semantics).  In both cases the decomposition
`html = p ++ pattern ++ q` returned by `splitFirst` locates the pattern's
first occurrence (`splitFirst_first`). -/
theorem C9_insertion_points (html inject : List Char) :
    (∀ p q, splitFirst html markerChars = some (p, q) →
        html = p ++ markerChars ++ q ∧
        bake_splice html inject = p ++ (inject ++ markerChars) ++ q) ∧
    (splitFirst html markerChars = none →
      ∀ p q, splitFirst html bodyCloseChars = some (p, q) →
        html = p ++ bodyCloseChars ++ q ∧
        bake_splice html inject =
          p ++ (inject ++ bodyCloseChars)
            ++ pyReplaceAll q bodyCloseChars (inject ++ bodyCloseChars)) := by
  constructor
  · intro p q h
    refine ⟨splitFirst_eq_append _ _ _ _ h, ?_⟩
    unfold bake_splice
    rw [h]
    simp only [Option.isSome_some, if_true, pyReplaceOnce, h]
  · intro hm p q h
    refine ⟨splitFirst_eq_append _ _ _ _ h, ?_⟩
    unfold bake_splice
    rw [hm]
    simp only [Option.isSome_none, Bool.false_eq_true, if_false]
    exact pyReplaceAll_step html bodyCloseChars (inject ++ bodyCloseChars) p q (by decide) h

/-- Witness for C9: one template with the marker, one with only `</body>`. -/
theorem C9_insertion_points_witness :
    (bake_splice "ab<script>\n      const GROUPS = [cd".data "Z".data
        = "ab".data ++ ("Z".data ++ markerChars) ++ "cd".data) ∧
    (bake_splice "ab</body>cd".data "Z".data
        = "ab".data ++ ("Z".data ++ bodyCloseChars)
            ++ pyReplaceAll "cd".data bodyCloseChars ("Z".data ++ bodyCloseChars)) :=
  ⟨((C9_insertion_points "ab<script>\n      const GROUPS = [cd".data "Z".data).1
      "ab".data "cd".data (by decide)).2,
   (((C9_insertion_points "ab</body>cd".data "Z".data).2 (by decide))
      "ab".data "cd".data (by decide)).2⟩

/-- C10: a template containing neither the insertion marker nor `</body>` is
baked unchanged — both `replace` calls find nothing, the computed datasets
are silently dropped from the artifact, and no error or diagnostic is
raised. -/
theorem C10_template_unchanged (html inject : List Char)
    (hm : splitFirst html markerChars = none)
    (hb : splitFirst html bodyCloseChars = none) :
    bake_splice html inject = html := by
  unfold bake_splice
  rw [hm]
  simp only [Option.isSome_none, Bool.false_eq_true, if_false]
  exact pyReplaceAll_not_found html bodyCloseChars (inject ++ bodyCloseChars) hb

/-- Witness for C10 at a marker-free, body-free template. -/
theorem C10_template_unchanged_witness :
    bake_splice "<p>hello</p>".data "Z".data = "<p>hello</p>".data :=
  C10_template_unchanged _ _ (by decide) (by decide)

end Bench
